import Mathlib

/-!
# Verification of the Strava MCP OAuth front end (`src/index.ts`)

This file gives a shallow embedding of the OAuth delegation core of the
Strava MCP server: the signed-state codec (`encodeState` / `decodeState`),
the four OAuth endpoints (`/oauth/register`, `/oauth/authorize`,
`/oauth/callback`, `/oauth/token`), the metadata endpoints, and the `/mcp`
bearer gate.

Modelling conventions:
* JavaScript strings are Lean `String`s; the byte-level platform primitives
  (`btoa`, `atob`, `String.split`, `String.replace`) are modelled as
  executable functions over `List Char`.
* `crypto.subtle` HMAC-SHA256 is modelled by an abstract `HmacModel`
  (a deterministic keyed byte function producing 32 bytes `< 256`);
  `crypto.subtle.verify` for HMAC is recompute-and-compare.
* `JSON.stringify` / `JSON.parse` are modelled by an executable serializer
  and recursive-descent parser over an inductive `Json` type (numbers are
  integers, as every number in this program is an epoch-millisecond
  timestamp or an integer duration; `JSON.parse` is modelled on the
  whitespace-free canonical form that `JSON.stringify` emits).
* A handler returning `none` models a thrown JavaScript exception
  (e.g. `btoa` on a non-Latin-1 string, or `new URL` on an invalid URL),
  which the Hono framework converts to an HTTP 500 response.
* Redirect responses are kept structured (`UrlModel`): a base URL plus the
  decoded query-parameter list managed by `URLSearchParams`; the
  percent-encoding applied during URL serialization and undone by query
  parsing round-trips values, so parameters are modelled at the decoded
  level.
-/

/-- Latin-1 predicate: every character fits in one byte. `btoa` throws an
`InvalidCharacterError` on any character above U+00FF. -/
def latin1 (l : List Char) : Prop := ∀ c ∈ l, c.toNat ≤ 255

instance (l : List Char) : Decidable (latin1 l) := by
  unfold latin1; infer_instance

theorem toNat_ofNat_of_lt {n : Nat} (h : n < 55296) : (Char.ofNat n).toNat = n := by
  unfold Char.ofNat
  rw [dif_pos (Or.inl h)]
  rfl

theorem char_ne_of_toNat_ne {a b : Char} (h : a.toNat ≠ b.toNat) : a ≠ b :=
  fun he => h (he ▸ rfl)

/-! ## Base64 (`btoa` / `atob`)

`btoa` maps a binary string (all code points ≤ 255) to its base64 form and
throws otherwise; `atob` performs the forgiving-base64 decode (padding may
be omitted; trailing slack bits are discarded; a final chunk of length 1 is
an error). Both are modelled on byte lists. -/

/-- The base64 digit for a sextet value `< 64`. -/
def b64chr (n : Nat) : Char :=
  if n < 26 then Char.ofNat (65 + n)
  else if n < 52 then Char.ofNat (97 + (n - 26))
  else if n < 62 then Char.ofNat (48 + (n - 52))
  else if n = 62 then '+' else '/'

/-- The sextet value of a base64 digit (`none` for non-alphabet characters,
including `'='`). -/
def b64idx (c : Char) : Option Nat :=
  let u := c.toNat
  if 65 ≤ u ∧ u ≤ 90 then some (u - 65)
  else if 97 ≤ u ∧ u ≤ 122 then some (u - 97 + 26)
  else if 48 ≤ u ∧ u ≤ 57 then some (u - 48 + 52)
  else if u = 43 then some 62
  else if u = 47 then some 63
  else none

/-- Base64-encode a byte list (the computational core of `btoa`). -/
def b64encode : List Nat → List Char
  | [] => []
  | [b1] => [b64chr (b1 / 4), b64chr (b1 % 4 * 16), '=', '=']
  | [b1, b2] => [b64chr (b1 / 4), b64chr (b1 % 4 * 16 + b2 / 16), b64chr (b2 % 16 * 4), '=']
  | b1 :: b2 :: b3 :: rest =>
    b64chr (b1 / 4) :: b64chr (b1 % 4 * 16 + b2 / 16) ::
    b64chr (b2 % 16 * 4 + b3 / 64) :: b64chr (b3 % 64) :: b64encode rest

/-- Forgiving base64 decode (the computational core of `atob`): `none`
models a thrown `InvalidCharacterError`. -/
def b64decode : List Char → Option (List Nat)
  | c1 :: c2 :: c3 :: c4 :: rest => do
    let n1 ← b64idx c1
    let n2 ← b64idx c2
    if c3 = '=' then
      if c4 = '=' ∧ rest = [] then pure [n1 * 4 + n2 / 16] else none
    else do
      let n3 ← b64idx c3
      if c4 = '=' then
        if rest = [] then pure [n1 * 4 + n2 / 16, n2 % 16 * 16 + n3 / 4] else none
      else do
        let n4 ← b64idx c4
        let tail ← b64decode rest
        pure ((n1 * 4 + n2 / 16) :: (n2 % 16 * 16 + n3 / 4) :: (n3 % 4 * 64 + n4) :: tail)
  | [] => some []
  | [c1, c2] => do
    let n1 ← b64idx c1
    let n2 ← b64idx c2
    pure [n1 * 4 + n2 / 16]
  | [c1, c2, c3] => do
    let n1 ← b64idx c1
    let n2 ← b64idx c2
    let n3 ← b64idx c3
    pure [n1 * 4 + n2 / 16, n2 % 16 * 16 + n3 / 4]
  | _ => none

theorem b64idx_b64chr (n : Nat) (h : n < 64) : b64idx (b64chr n) = some n := by
  unfold b64chr
  by_cases h1 : n < 26
  · rw [if_pos h1]
    unfold b64idx
    rw [toNat_ofNat_of_lt (by omega)]
    simp only
    rw [if_pos (by omega)]
    simp only [Option.some.injEq]
    omega
  · rw [if_neg h1]
    by_cases h2 : n < 52
    · rw [if_pos h2]
      unfold b64idx
      rw [toNat_ofNat_of_lt (by omega)]
      simp only
      rw [if_neg (by omega), if_pos (by omega)]
      simp only [Option.some.injEq]
      omega
    · rw [if_neg h2]
      by_cases h3 : n < 62
      · rw [if_pos h3]
        unfold b64idx
        rw [toNat_ofNat_of_lt (by omega)]
        simp only
        rw [if_neg (by omega), if_neg (by omega), if_pos (by omega)]
        simp only [Option.some.injEq]
        omega
      · rw [if_neg h3]
        by_cases h4 : n = 62
        · subst h4
          decide
        · rw [if_neg h4]
          have h5 : n = 63 := by omega
          subst h5
          decide

theorem b64chr_toNat_ranges (n : Nat) :
    (Char.toNat (b64chr n) = 43) ∨ (Char.toNat (b64chr n) = 47) ∨
    (48 ≤ Char.toNat (b64chr n) ∧ Char.toNat (b64chr n) ≤ 57) ∨
    (65 ≤ Char.toNat (b64chr n) ∧ Char.toNat (b64chr n) ≤ 90) ∨
    (97 ≤ Char.toNat (b64chr n) ∧ Char.toNat (b64chr n) ≤ 122) := by
  unfold b64chr
  by_cases h1 : n < 26
  · rw [if_pos h1, toNat_ofNat_of_lt (by omega)]; omega
  · rw [if_neg h1]
    by_cases h2 : n < 52
    · rw [if_pos h2, toNat_ofNat_of_lt (by omega)]; omega
    · rw [if_neg h2]
      by_cases h3 : n < 62
      · rw [if_pos h3, toNat_ofNat_of_lt (by omega)]; omega
      · rw [if_neg h3]
        by_cases h4 : n = 62
        · subst h4; decide
        · rw [if_neg h4]; right; left; decide

theorem b64chr_ne_pad (n : Nat) : b64chr n ≠ '=' := by
  apply char_ne_of_toNat_ne
  have h := b64chr_toNat_ranges n
  have : Char.toNat '=' = 61 := by decide
  omega

theorem b64chr_ne_dot (n : Nat) : b64chr n ≠ '.' := by
  apply char_ne_of_toNat_ne
  have h := b64chr_toNat_ranges n
  have : Char.toNat '.' = 46 := by decide
  omega

theorem b64encode_no_dot : ∀ (bs : List Nat), ∀ c ∈ b64encode bs, c ≠ '.'
  | [] => by simp [b64encode]
  | [b1] => by
    simp only [b64encode, List.mem_cons, List.not_mem_nil, or_false]
    rintro c (rfl | rfl | rfl | rfl) <;> first
      | exact b64chr_ne_dot _
      | decide
  | [b1, b2] => by
    simp only [b64encode, List.mem_cons, List.not_mem_nil, or_false]
    rintro c (rfl | rfl | rfl | rfl) <;> first
      | exact b64chr_ne_dot _
      | decide
  | b1 :: b2 :: b3 :: rest => by
    simp only [b64encode, List.mem_cons]
    rintro c (rfl | rfl | rfl | rfl | hm)
    · exact b64chr_ne_dot _
    · exact b64chr_ne_dot _
    · exact b64chr_ne_dot _
    · exact b64chr_ne_dot _
    · exact b64encode_no_dot rest c hm

theorem b64encode_ne_nil : ∀ (bs : List Nat), bs ≠ [] → b64encode bs ≠ []
  | [], h => absurd rfl h
  | [_], _ => by simp [b64encode]
  | [_, _], _ => by simp [b64encode]
  | _ :: _ :: _ :: _, _ => by simp [b64encode]

theorem b64decode_encode : ∀ (bs : List Nat), (∀ b ∈ bs, b < 256) →
    b64decode (b64encode bs) = some bs
  | [], _ => rfl
  | [b1], h => by
    have hb1 : b1 < 256 := h b1 (by simp)
    have e1 := b64idx_b64chr (b1 / 4) (by omega)
    have e2 := b64idx_b64chr (b1 % 4 * 16) (by omega)
    simp [b64encode, b64decode, e1, e2]
    omega
  | [b1, b2], h => by
    have hb1 : b1 < 256 := h b1 (by simp)
    have hb2 : b2 < 256 := h b2 (by simp)
    have e1 := b64idx_b64chr (b1 / 4) (by omega)
    have e2 := b64idx_b64chr (b1 % 4 * 16 + b2 / 16) (by omega)
    have e3 := b64idx_b64chr (b2 % 16 * 4) (by omega)
    simp [b64encode, b64decode, e1, e2, e3, b64chr_ne_pad]
    omega
  | b1 :: b2 :: b3 :: rest, h => by
    have hb1 : b1 < 256 := h b1 (by simp)
    have hb2 : b2 < 256 := h b2 (by simp)
    have hb3 : b3 < 256 := h b3 (by simp)
    have ih := b64decode_encode rest (fun b hb => h b (by simp [hb]))
    have e1 := b64idx_b64chr (b1 / 4) (by omega)
    have e2 := b64idx_b64chr (b1 % 4 * 16 + b2 / 16) (by omega)
    have e3 := b64idx_b64chr (b2 % 16 * 4 + b3 / 64) (by omega)
    have e4 := b64idx_b64chr (b3 % 64) (by omega)
    simp [b64encode, b64decode, e1, e2, e3, e4, b64chr_ne_pad, ih]
    omega

/-! ## `String.split`, `String.includes`, `String.replace` -/

/-- Model of JavaScript `String.prototype.split` with a single-character
separator (the code splits on `"."`). -/
def splitOnChar (sep : Char) : List Char → List (List Char)
  | [] => [[]]
  | c :: cs =>
    if c = sep then [] :: splitOnChar sep cs
    else
      match splitOnChar sep cs with
      | [] => [[c]]
      | s :: ss => (c :: s) :: ss

theorem splitOnChar_ne_nil (sep : Char) : ∀ l, splitOnChar sep l ≠ []
  | [] => by simp [splitOnChar]
  | c :: cs => by
    simp only [splitOnChar]
    split
    · simp
    · split <;> simp

theorem splitOnChar_of_not_mem {sep : Char} : ∀ {l : List Char}, sep ∉ l →
    splitOnChar sep l = [l]
  | [], _ => rfl
  | c :: cs, h => by
    have hc : c ≠ sep := fun he => h (he ▸ List.mem_cons_self c cs)
    have hcs : sep ∉ cs := fun hm => h (List.mem_cons_of_mem c hm)
    simp only [splitOnChar, if_neg hc, splitOnChar_of_not_mem hcs]

theorem splitOnChar_append {sep : Char} : ∀ {a : List Char}, sep ∉ a → ∀ (b : List Char),
    splitOnChar sep (a ++ sep :: b) = a :: splitOnChar sep b
  | [], _, b => by simp [splitOnChar]
  | c :: cs, h, b => by
    have hc : c ≠ sep := fun he => h (he ▸ List.mem_cons_self c cs)
    have hcs : sep ∉ cs := fun hm => h (List.mem_cons_of_mem c hm)
    have ih := splitOnChar_append hcs b
    show splitOnChar sep (c :: (cs ++ sep :: b)) = (c :: cs) :: splitOnChar sep b
    simp only [splitOnChar, if_neg hc]
    rw [ih]

/-- Model of JavaScript `String.prototype.includes`. -/
def hasSubstr (l pat : List Char) : Bool :=
  match l with
  | [] => pat.isEmpty
  | _ :: rest => pat.isPrefixOf l || hasSubstr rest pat

/-- Model of JavaScript `String.prototype.replace(pat, "")` with a string
pattern: removes the first occurrence of `pat`, if any. -/
def replaceFirstAux (pat : List Char) : List Char → List Char
  | [] => []
  | c :: cs =>
    if pat.isPrefixOf (c :: cs) then (c :: cs).drop pat.length
    else c :: replaceFirstAux pat cs

def replaceFirst (s pat : String) : String :=
  String.mk (replaceFirstAux pat.data s.data)

theorem replaceFirstAux_of_no_substr {pat : List Char} (hne : pat ≠ []) :
    ∀ {l : List Char}, hasSubstr l pat = false → replaceFirstAux pat l = l
  | [], _ => rfl
  | c :: cs, h => by
    simp only [hasSubstr, Bool.or_eq_false_iff] at h
    have ih := replaceFirstAux_of_no_substr hne h.2
    simp only [replaceFirstAux]
    rw [if_neg (by simp [h.1]), ih]

/-! ## JSON (`JSON.stringify` / `JSON.parse`)

Payloads are JSON values; every number appearing in this program is an
integer (epoch-millisecond timestamps, durations), so numbers are modelled
as `Int`. Object fields keep insertion order, exactly as `JSON.stringify`
serializes them. -/

inductive Json where
  | null : Json
  | bool : Bool → Json
  | num : Int → Json
  | str : String → Json
  | arr : List Json → Json
  | obj : List (String × Json) → Json
deriving Inhabited

/-- Decimal digits of a natural number (the integral-number case of
JavaScript number-to-string). -/
def natToCharsGo (fuel n : Nat) (acc : List Char) : List Char :=
  match fuel with
  | 0 => acc
  | f + 1 =>
    let d := Char.ofNat (48 + n % 10)
    if n < 10 then d :: acc else natToCharsGo f (n / 10) (d :: acc)

def natToChars (n : Nat) : List Char := natToCharsGo (n + 1) n []

def intToChars (i : Int) : List Char :=
  if i < 0 then '-' :: natToChars i.natAbs else natToChars i.toNat

/-- Lowercase hexadecimal digit (as in `JSON.stringify`'s `\u00XX` escapes). -/
def hexDigit (n : Nat) : Char :=
  if n < 10 then Char.ofNat (48 + n) else Char.ofNat (87 + n)

/-- `JSON.stringify`'s escaping of a single string character: `"` and `\`
get a backslash escape, the control characters with short escapes use them,
remaining control characters use `\u00XX`, everything else (including all
non-ASCII) is emitted verbatim. -/
def escChar (c : Char) : List Char :=
  if c = '"' then ['\\', '"']
  else if c = '\\' then ['\\', '\\']
  else if c.toNat = 8 then ['\\', 'b']
  else if c.toNat = 9 then ['\\', 't']
  else if c.toNat = 10 then ['\\', 'n']
  else if c.toNat = 12 then ['\\', 'f']
  else if c.toNat = 13 then ['\\', 'r']
  else if c.toNat < 32 then ['\\', 'u', '0', '0', hexDigit (c.toNat / 16), hexDigit (c.toNat % 16)]
  else [c]

def escString (s : String) : List Char :=
  '"' :: (s.data.map escChar).flatten ++ ['"']

mutual

def Json.stringifyChars : Json → List Char
  | .null => "null".data
  | .bool true => "true".data
  | .bool false => "false".data
  | .num i => intToChars i
  | .str s => escString s
  | .arr xs => '[' :: stringifyItems xs ++ [']']
  | .obj kvs => '\x7b' :: stringifyFields kvs ++ ['\x7d']

def stringifyItems : List Json → List Char
  | [] => []
  | [x] => Json.stringifyChars x
  | x :: xs => Json.stringifyChars x ++ ',' :: stringifyItems xs

def stringifyFields : List (String × Json) → List Char
  | [] => []
  | [(k, v)] => escString k ++ ':' :: Json.stringifyChars v
  | (k, v) :: kvs => escString k ++ ':' :: Json.stringifyChars v ++ ',' :: stringifyFields kvs

end

/-- `JSON.stringify` of a JSON value, as a string. -/
def Json.stringify (j : Json) : String := String.mk (Json.stringifyChars j)

/-- Parse the body of a JSON string literal (after the opening quote):
returns the decoded characters and the input remaining after the closing
quote. -/
def parseStringBody : List Char → Option (List Char × List Char)
  | [] => none
  | c :: cs =>
    if c = '"' then some ([], cs)
    else if c = '\\' then
      match cs with
      | [] => none
      | e :: cs' =>
        if e = '"' then (parseStringBody cs').map (fun p => ('"' :: p.1, p.2))
        else if e = '\\' then (parseStringBody cs').map (fun p => ('\\' :: p.1, p.2))
        else if e = '/' then (parseStringBody cs').map (fun p => ('/' :: p.1, p.2))
        else if e = 'b' then (parseStringBody cs').map (fun p => (Char.ofNat 8 :: p.1, p.2))
        else if e = 't' then (parseStringBody cs').map (fun p => (Char.ofNat 9 :: p.1, p.2))
        else if e = 'n' then (parseStringBody cs').map (fun p => (Char.ofNat 10 :: p.1, p.2))
        else if e = 'f' then (parseStringBody cs').map (fun p => (Char.ofNat 12 :: p.1, p.2))
        else if e = 'r' then (parseStringBody cs').map (fun p => (Char.ofNat 13 :: p.1, p.2))
        else if e = 'u' then
          match cs' with
          | h1 :: h2 :: h3 :: h4 :: cs'' =>
            match parseHexDigit h1, parseHexDigit h2, parseHexDigit h3, parseHexDigit h4 with
            | some d1, some d2, some d3, some d4 =>
              let n := ((d1 * 16 + d2) * 16 + d3) * 16 + d4
              if n < 55296 then
                (parseStringBody cs'').map (fun p => (Char.ofNat n :: p.1, p.2))
              else none
            | _, _, _, _ => none
          | _ => none
        else none
    else (parseStringBody cs).map (fun p => (c :: p.1, p.2))
where
  parseHexDigit (c : Char) : Option Nat :=
    let u := c.toNat
    if 48 ≤ u ∧ u ≤ 57 then some (u - 48)
    else if 97 ≤ u ∧ u ≤ 102 then some (u - 97 + 10)
    else if 65 ≤ u ∧ u ≤ 70 then some (u - 65 + 10)
    else none

/-- Greedily parse a run of decimal digits (accumulator style). -/
def parseNatAux : List Char → Nat → (Nat × List Char)
  | [], acc => (acc, [])
  | c :: cs, acc =>
    if 48 ≤ c.toNat ∧ c.toNat ≤ 57 then parseNatAux cs (acc * 10 + (c.toNat - 48))
    else (acc, c :: cs)

def parseNat (l : List Char) : Option (Nat × List Char) :=
  match l with
  | c :: cs =>
    if 48 ≤ c.toNat ∧ c.toNat ≤ 57 then some (parseNatAux (c :: cs) 0) else none
  | [] => none

mutual

/-- Recursive-descent JSON parser on the canonical (whitespace-free) form
emitted by `JSON.stringify`; numbers are integers (no fractions or
exponents, which never occur in this program's payloads). The `fuel`
argument bounds recursion depth and is chosen large enough by `parseChars`. -/
def parseValue : Nat → List Char → Option (Json × List Char)
  | 0, _ => none
  | f + 1, l =>
    match l with
    | 'n' :: 'u' :: 'l' :: 'l' :: r => some (.null, r)
    | 't' :: 'r' :: 'u' :: 'e' :: r => some (.bool true, r)
    | 'f' :: 'a' :: 'l' :: 's' :: 'e' :: r => some (.bool false, r)
    | '"' :: r => (parseStringBody r).map (fun p => (.str (String.mk p.1), p.2))
    | '-' :: r => (parseNat r).map (fun p => (.num (-(p.1 : Int)), p.2))
    | '[' :: r =>
      (match r with
       | ']' :: r' => some (.arr [], r')
       | _ => (parseItems f r).map (fun p => (.arr p.1, p.2)))
    | c :: r =>
      if c = '\x7b' then
        match r with
        | c' :: r' =>
          if c' = '\x7d' then some (.obj [], r')
          else (parseFields f (c' :: r')).map (fun p => (.obj p.1, p.2))
        | [] => none
      else if 48 ≤ c.toNat ∧ c.toNat ≤ 57 then
        (parseNat (c :: r)).map (fun p => (.num (p.1 : Int), p.2))
      else none
    | [] => none

/-- Comma-separated array items, consuming the closing `]`. -/
def parseItems : Nat → List Char → Option (List Json × List Char)
  | 0, _ => none
  | f + 1, l =>
    match parseValue f l with
    | some (j, r) =>
      match r with
      | ',' :: r' => (parseItems f r').map (fun p => (j :: p.1, p.2))
      | ']' :: r' => some ([j], r')
      | _ => none
    | none => none

/-- Comma-separated object fields, consuming the closing brace. -/
def parseFields : Nat → List Char → Option (List (String × Json) × List Char)
  | 0, _ => none
  | f + 1, l =>
    match l with
    | '"' :: r =>
      match parseStringBody r with
      | some (k, r1) =>
        match r1 with
        | ':' :: r2 =>
          match parseValue f r2 with
          | some (v, r3) =>
            match r3 with
            | ',' :: r4 => (parseFields f r4).map (fun p => ((String.mk k, v) :: p.1, p.2))
            | c :: r4 =>
              if c = '\x7d' then some ([(String.mk k, v)], r4) else none
            | [] => none
          | none => none
        | _ => none
      | none => none
    | _ => none

end

/-- `JSON.parse` on a whole input (must consume everything); `none` models
a thrown `SyntaxError`. -/
def parseChars (l : List Char) : Option Json :=
  match parseValue (l.length + 8) l with
  | some (j, []) => some j
  | _ => none

/-! ## The signed-state codec (`encodeState` / `decodeState`) -/

/-- Model of `crypto.subtle` HMAC-SHA256 (`importKey` + `sign`): a
deterministic keyed function from (secret, message) to a 32-byte tag.
`crypto.subtle.verify` for HMAC is recompute-and-compare. The secret is the
UTF-8 encoding of a string and the message the UTF-8 encoding of the
serialized payload; both encodings are absorbed into the abstract
function. -/
structure HmacModel where
  sig : String → List Char → List Nat
  sig_lt : ∀ k m, ∀ b ∈ sig k m, b < 256
  sig_length : ∀ k m, (sig k m).length = 32

/-- `src/index.ts` lines 31-48:
serialize the payload, HMAC-sign the serialization, and return
`btoa(dataStr) ++ "." ++ btoa(signature-bytes)`. `btoa` of the signature
bytes always succeeds (bytes are ≤ 255); `btoa(dataStr)` throws — modelled
as `none` — when the serialized payload contains a character above U+00FF
(`JSON.stringify` emits non-ASCII characters verbatim). -/
def encodeState (H : HmacModel) (data : Json) (secret : String) : Option String :=
  let dataStr := Json.stringifyChars data
  let signature := H.sig secret dataStr
  let sigBase64 := b64encode signature
  if latin1 dataStr then
    some (String.mk (b64encode (dataStr.map Char.toNat) ++ '.' :: sigBase64))
  else none

/-- `src/index.ts` lines 51-75:
split on `"."` (JavaScript `split` returns every segment; the destructuring
takes the first two), reject empty segments, `atob` both halves, verify the
recomputed MAC against the transmitted one, and `JSON.parse` the data
half. Any thrown error (bad base64, bad JSON) is caught and becomes
`null`, modelled as `none`. -/
def decodeState (H : HmacModel) (state : String) (secret : String) : Option Json :=
  match splitOnChar '.' state.data with
  | dataBase64 :: sigBase64 :: _ =>
    if dataBase64 = [] ∨ sigBase64 = [] then none
    else
      match b64decode dataBase64, b64decode sigBase64 with
      | some dataBytes, some sigBytes =>
        let dataStr := dataBytes.map Char.ofNat
        if H.sig secret dataStr = sigBytes then parseChars dataStr else none
      | _, _ => none
  | _ => none

theorem natToCharsGo_ne_nil : ∀ (fuel n : Nat) (acc : List Char),
    (fuel ≠ 0 ∨ acc ≠ []) → natToCharsGo fuel n acc ≠ []
  | 0, _, acc, h => by
    simp only [natToCharsGo]
    exact h.resolve_left (fun hc => hc rfl)
  | f + 1, n, acc, _ => by
    simp only [natToCharsGo]
    split
    · simp
    · exact natToCharsGo_ne_nil f (n / 10) _ (Or.inr (by simp))

theorem natToChars_ne_nil (n : Nat) : natToChars n ≠ [] :=
  natToCharsGo_ne_nil (n + 1) n [] (Or.inl (by omega))

theorem intToChars_ne_nil (i : Int) : intToChars i ≠ [] := by
  unfold intToChars
  split
  · simp
  · exact natToChars_ne_nil _

theorem stringifyChars_ne_nil : ∀ j : Json, Json.stringifyChars j ≠ []
  | .null => by decide
  | .bool true => by decide
  | .bool false => by decide
  | .num i => by simpa [Json.stringifyChars] using intToChars_ne_nil i
  | .str s => by simp [Json.stringifyChars, escString]
  | .arr xs => by simp [Json.stringifyChars]
  | .obj kvs => by simp [Json.stringifyChars]

theorem ofNat_toNat_map (l : List Char) : (l.map Char.toNat).map Char.ofNat = l := by
  rw [List.map_map]
  have : (Char.ofNat ∘ Char.toNat) = id := funext Char.ofNat_toNat
  rw [this, List.map_id]

/-- Core decode/encode inversion: a token produced by `encodeState`, with
any (possibly empty) list of extra `"."`-separated segments appended,
decodes to the original payload — provided the modelled `JSON.parse`
recovers the payload from its own serialization (the platform guarantee
for JSON round-trips). -/
theorem decodeState_of_token_split (H : HmacModel) (p : Json) (secret : String)
    (state : String) (ss : List (List Char))
    (hl : latin1 (Json.stringifyChars p))
    (hp : parseChars (Json.stringifyChars p) = some p)
    (hsplit : splitOnChar '.' state.data =
      b64encode ((Json.stringifyChars p).map Char.toNat) ::
      b64encode (H.sig secret (Json.stringifyChars p)) :: ss) :
    decodeState H state secret = some p := by
  have hd_ne : b64encode ((Json.stringifyChars p).map Char.toNat) ≠ [] :=
    b64encode_ne_nil _ (by simpa using stringifyChars_ne_nil p)
  have hs_ne : b64encode (H.sig secret (Json.stringifyChars p)) ≠ [] :=
    b64encode_ne_nil _ (by
      intro hnil
      have := H.sig_length secret (Json.stringifyChars p)
      rw [hnil] at this
      simp at this)
  simp only [decodeState, hsplit]
  rw [if_neg (by simp [hd_ne, hs_ne])]
  have hdec1 : b64decode (b64encode ((Json.stringifyChars p).map Char.toNat)) =
      some ((Json.stringifyChars p).map Char.toNat) := by
    apply b64decode_encode
    intro b hb
    rcases List.mem_map.mp hb with ⟨c, hc, rfl⟩
    have := hl c hc
    omega
  have hdec2 : b64decode (b64encode (H.sig secret (Json.stringifyChars p))) =
      some (H.sig secret (Json.stringifyChars p)) :=
    b64decode_encode _ (H.sig_lt secret (Json.stringifyChars p))
  rw [hdec1, hdec2]
  simp only [ofNat_toNat_map]
  simp [hp]

/-- A token produced by `encodeState` splits on `"."` into exactly the two
base64 halves it was built from. -/
theorem encodeState_split (H : HmacModel) (p : Json) (secret t : String)
    (he : encodeState H p secret = some t) :
    latin1 (Json.stringifyChars p) ∧
    t.data = b64encode ((Json.stringifyChars p).map Char.toNat) ++
      '.' :: b64encode (H.sig secret (Json.stringifyChars p)) := by
  simp only [encodeState] at he
  split at he
  · rename_i hl
    refine ⟨hl, ?_⟩
    simp only [Option.some.injEq] at he
    rw [← he]
  · exact absurd he (by simp)

/-- `decodeState` inverts `encodeState` (under the JSON round-trip
guarantee for the payload). -/
theorem decodeState_encodeState (H : HmacModel) (p : Json) (secret t : String)
    (he : encodeState H p secret = some t)
    (hp : parseChars (Json.stringifyChars p) = some p) :
    decodeState H t secret = some p := by
  obtain ⟨hl, hdata⟩ := encodeState_split H p secret t he
  apply decodeState_of_token_split H p secret t [] hl hp
  rw [hdata]
  rw [splitOnChar_append (fun hm => b64encode_no_dot _ _ hm rfl) _]
  rw [splitOnChar_of_not_mem (fun hm => b64encode_no_dot _ _ hm rfl)]

/-- Appending `"." ++ x` to a valid token does not change what it decodes
to: `split` produces extra segments that the destructuring ignores. -/
theorem decodeState_encodeState_append (H : HmacModel) (p : Json) (secret t : String)
    (he : encodeState H p secret = some t)
    (hp : parseChars (Json.stringifyChars p) = some p)
    (x : String) :
    decodeState H (t ++ "." ++ x) secret = some p := by
  obtain ⟨hl, hdata⟩ := encodeState_split H p secret t he
  apply decodeState_of_token_split H p secret (t ++ "." ++ x)
    (splitOnChar '.' x.data) hl hp
  have hdot : ("." : String).data = ['.'] := rfl
  have hlist : (t ++ "." ++ x).data =
      b64encode ((Json.stringifyChars p).map Char.toNat) ++
      '.' :: (b64encode (H.sig secret (Json.stringifyChars p)) ++ '.' :: x.data) := by
    rw [String.data_append, String.data_append, hdata, hdot]
    simp [List.append_assoc]
  rw [hlist]
  rw [splitOnChar_append (fun hm => b64encode_no_dot _ _ hm rfl) _]
  rw [splitOnChar_append (fun hm => b64encode_no_dot _ _ hm rfl) _]

set_option maxRecDepth 10000

/-! ## HTTP layer: environment, responses, URLs, queries -/

/-- The Cloudflare Workers environment bindings (`interface Env`). A
missing binding and an empty string are both JavaScript-falsy in the
handlers' `if (!x)` configuration checks, so secrets are modelled as
strings with `""` meaning "absent". -/
structure Env where
  STRAVA_CLIENT_ID : String
  STRAVA_CLIENT_SECRET : String
  OAUTH_STATE_SECRET : String

/-- A URL as manipulated through `new URL` + `URLSearchParams`: the part
before `?`, plus the decoded query-parameter list. `URLSearchParams`
percent-encodes values on serialization and callers decode them again, so
parameter values are modelled at the decoded level. -/
structure UrlModel where
  base : String
  params : List (String × String)
deriving DecidableEq

/-- An HTTP response: a JSON body with a status, a redirect (Hono's
`c.redirect`, status 302), or a plain-text body (status 200). -/
inductive Response where
  | json (body : Json) (status : Nat)
  | redirect (target : UrlModel)
  | text (body : String)

def Response.status : Response → Nat
  | .json _ s => s
  | .redirect _ => 302
  | .text _ => 200

/-- JavaScript truthiness of an optional string (`undefined` and `""` are
falsy). -/
def truthyS : Option String → Bool
  | none => false
  | some s => s ≠ ""

/-- `c.req.query(k)` / `URLSearchParams.get(k)`: first value bound to the
key, if any. -/
def getQuery (q : List (String × String)) (k : String) : Option String :=
  List.lookup k q

/-- `URLSearchParams.set`: replace the first binding of the key and drop
any later duplicates, or append if absent. -/
def setParam : List (String × String) → String → String → List (String × String)
  | [], k, v => [(k, v)]
  | (k', v') :: rest, k, v =>
    if k' = k then (k, v) :: rest.filter (fun p => p.1 ≠ k)
    else (k', v') :: setParam rest k v

/-- Split a char list at the first occurrence of `sep`; the second
component is `none` when `sep` does not occur. -/
def splitFirst (sep : Char) : List Char → (List Char × Option (List Char))
  | [] => ([], none)
  | c :: cs =>
    if c = sep then ([], some cs)
    else
      let p := splitFirst sep cs
      (c :: p.1, p.2)

/-- Query-string parsing as `new URL` does it: split on `&`, each pair at
its first `=` (percent-decoding is absorbed by the decoded-parameter
convention). -/
def parseQuery (q : List Char) : List (String × String) :=
  (splitOnChar '&' q).map (fun seg =>
    let p := splitFirst '=' seg
    (String.mk p.1, String.mk (p.2.getD [])))

/-- Model of `new URL(s)` for the `http(s)` URLs this service handles: the
constructor throws (`none`) when the string has no scheme. (Exotic schemes
and fragments are outside the model; every URL the claims exercise is
`http(s)`.) -/
def parseUrl (s : String) : Option UrlModel :=
  if "http://".data.isPrefixOf s.data ∨ "https://".data.isPrefixOf s.data then
    match splitFirst '?' s.data with
    | (base, none) => some { base := String.mk base, params := [] }
    | (base, some q) => some { base := String.mk base, params := parseQuery q }
  else none

/-! ## JSON value helpers (JavaScript property access and truthiness) -/

/-- JavaScript property access `j[k]` on a parsed JSON value: `none` is
`undefined` (also for non-objects). Objects built by this program have
distinct keys, so first-match lookup agrees with JavaScript. -/
def jsGet (j : Json) (k : String) : Option Json :=
  match j with
  | .obj kvs => List.lookup k kvs
  | _ => none

/-- JavaScript truthiness of a JSON value. -/
def jsTruthy : Json → Bool
  | .null => false
  | .bool b => b
  | .num n => n ≠ 0
  | .str s => s ≠ ""
  | .arr _ => true
  | .obj _ => true

/-- JavaScript string coercion of a JSON value, as performed by
`URLSearchParams.set` on a non-string argument. (Array/object coercion is
not modelled faithfully; no payload this server produces contains one in a
string position.) -/
def jsCoerceStr : Json → String
  | .str s => s
  | .num i => String.mk (intToChars i)
  | .bool true => "true"
  | .bool false => "false"
  | .null => "null"
  | .arr _ => ""
  | .obj _ => "[object Object]"

/-! ## Constants and payload shapes from `src/index.ts` -/

def STRAVA_AUTHORIZE_URL : String := "https://www.strava.com/oauth/authorize"

def STRAVA_TOKEN_URL : String := "https://www.strava.com/oauth/token"

/-- Lines 21-28: the fixed requested-scope list, joined with `","`. -/
def STRAVA_SCOPES : String :=
  String.intercalate ","
    ["read", "read_all", "profile:read_all", "activity:read", "activity:read_all", "activity:write"]

/-- The *Authorize State* payload built at `/oauth/authorize` (lines
296-303). `JSON.stringify` drops keys whose value is `undefined`, so the
two optional query parameters contribute their key only when present. -/
def authStatePayload (redirectUri clientState : Option String) (now : Int) : Json :=
  Json.obj
    ((match redirectUri with
      | some v => [("redirect_uri", Json.str v)]
      | none => []) ++
     (match clientState with
      | some v => [("client_state", Json.str v)]
      | none => []) ++
     [("timestamp", Json.num now)])

/-- The *Wrapped Code* payload built at `/oauth/callback` (lines 362-367). -/
def wrappedCodePayload (code : String) : Json :=
  Json.obj [("strava_code", Json.str code)]

/-! ## Route handlers -/

/-- `GET /` (line 78). -/
def healthRoot : Response := Response.text "Strava MCP server"

/-- `host` header fallback and protocol selection shared by several
handlers (`c.req.header("host") || "localhost"`;
`host.includes("localhost") ? "http" : "https"`). -/
def resolveHost (hostHeader : Option String) : String :=
  if truthyS hostHeader then hostHeader.getD "" else "localhost"

def protocolFor (host : String) : String :=
  if hasSubstr host.data "localhost".data then "http" else "https"

def baseUrlFor (hostHeader : Option String) : String :=
  let host := resolveHost hostHeader
  protocolFor host ++ "://" ++ host

/-- The scope list as published in metadata (`STRAVA_SCOPES.split(",")`). -/
def scopesSupported : Json :=
  Json.arr ((splitOnChar ',' STRAVA_SCOPES.data).map (fun l => Json.str (String.mk l)))

/-- `GET /.well-known/oauth-protected-resource` (lines 83-93) and its
`/mcp`-suffixed variant (lines 96-106), which serve the same document. -/
def wellKnownOauthProtectedResource (hostHeader : Option String) : Response :=
  let baseUrl := baseUrlFor hostHeader
  Response.json (Json.obj [
    ("resource", Json.str (baseUrl ++ "/mcp")),
    ("authorization_servers", Json.arr [Json.str baseUrl]),
    ("scopes_supported", scopesSupported)]) 200

/-- `GET /.well-known/oauth-authorization-server` (lines 109-125). -/
def wellKnownOauthAuthorizationServer (hostHeader : Option String) : Response :=
  let baseUrl := baseUrlFor hostHeader
  Response.json (Json.obj [
    ("issuer", Json.str baseUrl),
    ("authorization_endpoint", Json.str (baseUrl ++ "/oauth/authorize")),
    ("token_endpoint", Json.str (baseUrl ++ "/oauth/token")),
    ("registration_endpoint", Json.str (baseUrl ++ "/oauth/register")),
    ("scopes_supported", scopesSupported),
    ("response_types_supported", Json.arr [Json.str "code"]),
    ("grant_types_supported", Json.arr [Json.str "authorization_code", Json.str "refresh_token"]),
    ("token_endpoint_auth_methods_supported", Json.arr [Json.str "none"]),
    ("code_challenge_methods_supported", Json.arr [Json.str "S256"])]) 200

/-- `POST /oauth/register` (lines 130-144): echoes the submitted
`redirect_uris` (or `[]`) together with a freshly generated identifier
(`crypto.randomUUID()`, passed in as `uuid`) and a fixed capability set.
The handler never reads the environment: no configuration check. -/
def oauthRegister (env : Env) (body : Json) (uuid : String) : Response :=
  Response.json (Json.obj [
    ("client_id", Json.str uuid),
    ("client_secret_expires_at", Json.num 0),
    ("redirect_uris",
      match jsGet body "redirect_uris" with
      | some v => if jsTruthy v then v else Json.arr []
      | none => Json.arr []),
    ("grant_types", Json.arr [Json.str "authorization_code", Json.str "refresh_token"]),
    ("response_types", Json.arr [Json.str "code"]),
    ("token_endpoint_auth_method", Json.str "none")]) 200

def notConfiguredBody : Json := Json.obj [("error", Json.str "OAuth not configured")]

def tokenNotConfiguredBody : Json :=
  Json.obj [("error", Json.str "server_error"), ("error_description", Json.str "OAuth not configured")]

/-- `GET /oauth/authorize` (lines 278-314). `now` is `Date.now()`. A
`none` result models the unhandled exception thrown by `btoa` inside
`encodeState` when a query parameter contains a character above U+00FF
(the framework then answers 500). -/
def oauthAuthorize (H : HmacModel) (env : Env) (hostHeader : Option String)
    (query : List (String × String)) (now : Int) : Option Response :=
  if env.STRAVA_CLIENT_ID = "" ∨ env.OAUTH_STATE_SECRET = "" then
    some (Response.json notConfiguredBody 500)
  else
    let host := resolveHost hostHeader
    let ourCallbackUrl := protocolFor host ++ "://" ++ host ++ "/oauth/callback"
    let clientRedirectUri := getQuery query "redirect_uri"
    let clientState := getQuery query "state"
    match encodeState H (authStatePayload clientRedirectUri clientState now) env.OAUTH_STATE_SECRET with
    | none => none
    | some state =>
      some (Response.redirect {
        base := STRAVA_AUTHORIZE_URL,
        params := [("client_id", env.STRAVA_CLIENT_ID), ("response_type", "code"),
                   ("redirect_uri", ourCallbackUrl), ("scope", STRAVA_SCOPES),
                   ("state", state), ("approval_prompt", "auto")] })

def stateExpiredBody : Json := Json.obj [("error", Json.str "State expired")]

def missingCodeStateBody : Json := Json.obj [("error", Json.str "Missing code or state")]

def invalidStateBody : Json := Json.obj [("error", Json.str "Invalid state")]

/-- The 10-minute expiry check at lines 357-359:
`stateData.timestamp && Date.now() - stateData.timestamp > 10 * 60 * 1000`.
A missing or zero (falsy) `timestamp` skips the check. (A non-numeric
`timestamp` — which this server never signs — is not modelled beyond
failing the comparison.) -/
def tsExpired (stateData : Json) (now : Int) : Bool :=
  match jsGet stateData "timestamp" with
  | some (Json.num t) => t ≠ 0 && decide (now - t > 10 * 60 * 1000)
  | _ => false

/-- Result of attempting the callback's client redirect: the
`redirect_uri` field was falsy or absent, or `new URL` threw, or the
redirect was built. -/
inductive RedirectAttempt where
  | noRedirect : RedirectAttempt
  | thrown : RedirectAttempt
  | redirect (target : UrlModel) : RedirectAttempt

/-- The redirect construction shared by the two callback branches:
`if (stateData.redirect_uri)`, then `new URL(stateData.redirect_uri)`
(throws on an invalid URL or a truthy non-string value), one
`searchParams.set(key, value)`, and a conditional
`searchParams.set("state", stateData.client_state)`. -/
def callbackRedirect (stateData : Json) (key value : String) : RedirectAttempt :=
  match jsGet stateData "redirect_uri" with
  | some v =>
    if jsTruthy v then
      match v with
      | Json.str r =>
        match parseUrl r with
        | some u =>
          let p1 := setParam u.params key value
          let p2 :=
            match jsGet stateData "client_state" with
            | some w => if jsTruthy w then setParam p1 "state" (jsCoerceStr w) else p1
            | none => p1
          .redirect { base := u.base, params := p2 }
        | none => .thrown
      | _ => .thrown
    else .noRedirect
  | none => .noRedirect

/-- `GET /oauth/callback` (lines 317-381). -/
def oauthCallback (H : HmacModel) (env : Env)
    (query : List (String × String)) (now : Int) : Option Response :=
  if env.OAUTH_STATE_SECRET = "" then
    some (Response.json notConfiguredBody 500)
  else
    let code := getQuery query "code"
    let state := getQuery query "state"
    let error := getQuery query "error"
    if truthyS error then
      let errorDesc :=
        if truthyS (getQuery query "error_description") then
          (getQuery query "error_description").getD ""
        else error.getD ""
      let err400 : Option Response :=
        some (Response.json (Json.obj [("error", Json.str ("OAuth error: " ++ errorDesc))]) 400)
      if truthyS state then
        match decodeState H (state.getD "") env.OAUTH_STATE_SECRET with
        | some stateData =>
          match callbackRedirect stateData "error" (error.getD "") with
          | .redirect u => some (Response.redirect u)
          | .thrown => none
          | .noRedirect => err400
        | none => err400
      else err400
    else
      if ¬ truthyS code ∨ ¬ truthyS state then
        some (Response.json missingCodeStateBody 400)
      else
        match decodeState H (state.getD "") env.OAUTH_STATE_SECRET with
        | none => some (Response.json invalidStateBody 400)
        | some stateData =>
          if ¬ jsTruthy stateData then some (Response.json invalidStateBody 400)
          else if tsExpired stateData now then
            some (Response.json stateExpiredBody 400)
          else
            match encodeState H (wrappedCodePayload (code.getD "")) env.OAUTH_STATE_SECRET with
            | none => none
            | some wrappedCode =>
              match callbackRedirect stateData "code" wrappedCode with
              | .redirect u => some (Response.redirect u)
              | .thrown => none
              | .noRedirect =>
                some (Response.json (Json.obj [("code", Json.str wrappedCode)]) 200)

/-! ## `POST /oauth/token` -/

/-- A `fetch` response from the upstream token endpoint: HTTP success flag
plus the parsed JSON body. -/
structure FetchResponse where
  ok : Bool
  body : Json

/-- The normalized 200 token response (lines 208-214 and 268-274):
`c.json({access_token, token_type: tokenData.token_type || "Bearer",
expires_in, refresh_token, scope: STRAVA_SCOPES})`. `JSON.stringify` drops
the keys whose upstream value is `undefined`; `null` values are kept. -/
def tokenSuccessBody (body : Json) : Json :=
  Json.obj (
    (match jsGet body "access_token" with
     | some v => [("access_token", v)]
     | none => []) ++
    [("token_type",
      match jsGet body "token_type" with
      | some v => if jsTruthy v then v else Json.str "Bearer"
      | none => Json.str "Bearer")] ++
    (match jsGet body "expires_in" with
     | some v => [("expires_in", v)]
     | none => []) ++
    (match jsGet body "refresh_token" with
     | some v => [("refresh_token", v)]
     | none => []) ++
    [("scope", Json.str STRAVA_SCOPES)])

/-- `POST /oauth/token` (lines 147-275). The request body is taken after
the form/JSON content-type normalization (both branches produce one
`URLSearchParams`), as the `params` key-value list. `fetchToken` models
the network call to `STRAVA_TOKEN_URL` with the given form parameters. -/
def oauthToken (H : HmacModel) (env : Env)
    (fetchToken : List (String × String) → FetchResponse)
    (params : List (String × String)) : Option Response :=
  if env.STRAVA_CLIENT_ID = "" ∨ env.STRAVA_CLIENT_SECRET = "" ∨ env.OAUTH_STATE_SECRET = "" then
    some (Response.json tokenNotConfiguredBody 500)
  else
    let grantType := getQuery params "grant_type"
    let code := getQuery params "code"
    let refreshToken := getQuery params "refresh_token"
    if grantType = some "refresh_token" then
      if ¬ truthyS refreshToken then
        some (Response.json (Json.obj [("error", Json.str "invalid_request"),
          ("error_description", Json.str "Missing refresh_token")]) 400)
      else
        let resp := fetchToken [("client_id", env.STRAVA_CLIENT_ID),
          ("client_secret", env.STRAVA_CLIENT_SECRET),
          ("grant_type", "refresh_token"), ("refresh_token", refreshToken.getD "")]
        if ¬ resp.ok then
          some (Response.json (Json.obj [("error", Json.str "invalid_grant"),
            ("error_description", Json.str "Token refresh failed")]) 400)
        else
          match jsGet resp.body "error" with
          | some e =>
            if jsTruthy e then some (Response.json (Json.obj [("error", e)]) 400)
            else some (Response.json (tokenSuccessBody resp.body) 200)
          | none => some (Response.json (tokenSuccessBody resp.body) 200)
    else if grantType ≠ some "authorization_code" then
      some (Response.json (Json.obj [("error", Json.str "unsupported_grant_type")]) 400)
    else if ¬ truthyS code then
      some (Response.json (Json.obj [("error", Json.str "invalid_request"),
        ("error_description", Json.str "Missing code")]) 400)
    else
      match decodeState H (code.getD "") env.OAUTH_STATE_SECRET with
      | none =>
        some (Response.json (Json.obj [("error", Json.str "invalid_grant"),
          ("error_description", Json.str "Invalid code")]) 400)
      | some codeData =>
        if ¬ jsTruthy codeData then
          some (Response.json (Json.obj [("error", Json.str "invalid_grant"),
            ("error_description", Json.str "Invalid code")]) 400)
        else
          let stravaCode :=
            match jsGet codeData "strava_code" with
            | some v => jsCoerceStr v
            | none => "undefined"
          let resp := fetchToken [("client_id", env.STRAVA_CLIENT_ID),
            ("client_secret", env.STRAVA_CLIENT_SECRET),
            ("code", stravaCode), ("grant_type", "authorization_code")]
          if ¬ resp.ok then
            some (Response.json (Json.obj [("error", Json.str "invalid_grant"),
              ("error_description", Json.str "Token exchange failed")]) 400)
          else
            match jsGet resp.body "error" with
            | some e =>
              if jsTruthy e then some (Response.json (Json.obj [("error", e)]) 400)
              else some (Response.json (tokenSuccessBody resp.body) 200)
            | none => some (Response.json (tokenSuccessBody resp.body) 200)

/-! ## `POST /mcp` bearer gate -/

def mcpMissingAuthBody : Json :=
  Json.obj [("jsonrpc", Json.str "2.0"),
    ("error", Json.obj [("code", Json.num (-32001)),
      ("message", Json.str "Missing authorization token")]),
    ("id", Json.null)]

def mcpMethodNotAllowedBody : Json :=
  Json.obj [("jsonrpc", Json.str "2.0"),
    ("error", Json.obj [("code", Json.num (-32000)),
      ("message", Json.str "Method not allowed in stateless mode")]),
    ("id", Json.null)]

/-- Outcome of `POST /mcp` (lines 385-412): either a direct response (the
401 guard) or delegation to the MCP transport with the extracted
access token handed to `new StravaClient(accessToken)`. -/
inductive McpOutcome where
  | response (r : Response) : McpOutcome
  | forward (accessToken : String) : McpOutcome

/-- `POST /mcp`:
`const accessToken = authHeader?.replace("Bearer ", ""); if (!accessToken) 401`.
`replace` removes only the first occurrence of the substring `"Bearer "`,
wherever it appears; no scheme validation happens. -/
def mcpPost (authHeader : Option String) : McpOutcome :=
  match authHeader.map (fun h => replaceFirst h "Bearer ") with
  | none => .response (Response.json mcpMissingAuthBody 401)
  | some t =>
    if t = "" then .response (Response.json mcpMissingAuthBody 401)
    else .forward t

/-- `GET /mcp` and `DELETE /mcp` (lines 414-423). -/
def mcpGetDelete : Response := Response.json mcpMethodNotAllowedBody 405

/-! ## Concrete instances for witnesses -/

/-- A concrete executable instance of the HMAC model, used to evaluate the
handlers at specific inputs (the theorems themselves are proved for every
`HmacModel`). -/
def hmacTest : HmacModel where
  sig k m := (List.range 32).map (fun i => (k.data.length * 7 + m.length * 13 + i * 31) % 256)
  sig_lt k m := by
    intro b hb
    rcases List.mem_map.mp hb with ⟨i, _, rfl⟩
    exact Nat.mod_lt _ (by omega)
  sig_length k m := by simp

def envTest : Env := ⟨"cid", "csec", "ssec"⟩

/-- A stubbed upstream token exchange that succeeds with the given fields
(ignoring the request, like a canned `fetch` stub). -/
def stubFetch (aT tT : String) (eI : Int) (rT : String) :
    List (String × String) → FetchResponse :=
  fun _ => ⟨true, Json.obj [("access_token", Json.str aT), ("token_type", Json.str tT),
    ("expires_in", Json.num eI), ("refresh_token", Json.str rT)]⟩

/-- A token produced by `encodeState` is never the empty string. -/
theorem encodeState_ne_empty (H : HmacModel) (p : Json) (secret t : String)
    (he : encodeState H p secret = some t) : t ≠ "" := by
  obtain ⟨_, hdata⟩ := encodeState_split H p secret t he
  intro h
  rw [h] at hdata
  exact absurd hdata.symm (by simp)

/-! ## C2 — codec round trip -/

/-- C2 counterexample: the round trip fails on the JSON-serializable
payload `{"a":"€"}` — `JSON.stringify` emits `€` (U+20AC) verbatim, and
`btoa` then throws, so `encodeState` never yields a token (the modelled
composition is `none`, not the payload). -/
theorem encode_decode_fails_on_non_latin1 :
    ((encodeState hmacTest (Json.obj [("a", Json.str "€")]) "s").bind
      (fun t => decodeState hmacTest t "s")) = none ∧
    ((none : Option Json) ≠ some (Json.obj [("a", Json.str "€")])) :=
  ⟨rfl, by simp⟩

/-- C2 (amended): for every payload whose JSON serialization stays within
Latin-1 (so that `btoa` accepts it) and every secret, decoding the encoded
token returns the payload. The `parseChars` hypothesis is the platform
guarantee that `JSON.parse` inverts `JSON.stringify` on this payload. -/
theorem encode_decode_roundtrip_latin1 (H : HmacModel) (p : Json) (secret : String)
    (hl : latin1 (Json.stringifyChars p))
    (hp : parseChars (Json.stringifyChars p) = some p) :
    (encodeState H p secret).bind (fun t => decodeState H t secret) = some p := by
  cases henc : encodeState H p secret with
  | none =>
    simp only [encodeState] at henc
    rw [if_pos hl] at henc
    cases henc
  | some t =>
    simp only [Option.some_bind]
    exact decodeState_encodeState H p secret t henc hp

theorem encode_decode_roundtrip_latin1_witness :
    (encodeState hmacTest (Json.obj [("a", Json.str "b")]) "s").bind
      (fun t => decodeState hmacTest t "s") = some (Json.obj [("a", Json.str "b")]) :=
  encode_decode_roundtrip_latin1 hmacTest (Json.obj [("a", Json.str "b")]) "s"
    (by decide) rfl

/-! ## C10 — extra `"."`-separated segments are ignored -/

/-- C10 counterexample: as stated, the property quantifies over every
payload, but for `{"b":"☂"}` (U+2602) `encodeState` throws inside `btoa`,
so `decodeState (encodeState(P,S) + "." + X, S)` cannot return the
payload. -/
theorem decode_extra_segment_fails_on_non_latin1 :
    ((encodeState hmacTest (Json.obj [("b", Json.str "☂")]) "s2").bind
      (fun t => decodeState hmacTest (t ++ "." ++ "junk") "s2")) = none ∧
    ((none : Option Json) ≠ some (Json.obj [("b", Json.str "☂")])) :=
  ⟨rfl, by simp⟩

/-- C10 (amended): whenever `encodeState` succeeds (Latin-1 serialization),
appending `"." + X` for an arbitrary string `X` does not change what the
token decodes to: `split(".")` yields extra segments beyond the first two
and the destructuring ignores them. -/
theorem decode_ignores_extra_segments (H : HmacModel) (p : Json) (secret t : String)
    (x : String)
    (he : encodeState H p secret = some t)
    (hp : parseChars (Json.stringifyChars p) = some p) :
    decodeState H (t ++ "." ++ x) secret = some p :=
  decodeState_encodeState_append H p secret t he hp x

theorem decode_ignores_extra_segments_witness :
    decodeState hmacTest
      (((encodeState hmacTest (Json.obj [("a", Json.str "b")]) "s").getD "") ++ "." ++ "ju.nk") "s"
      = some (Json.obj [("a", Json.str "b")]) :=
  decode_ignores_extra_segments hmacTest (Json.obj [("a", Json.str "b")]) "s" _ "ju.nk"
    rfl rfl

/-! ## C9 — `/mcp` bearer gate -/

/-- C9: `POST /mcp` answers 401 exactly when the `Authorization` header is
absent or becomes empty after removing the first occurrence of the
substring `"Bearer "`; any other value is accepted, and a value not
containing `"Bearer "` at all (e.g. `"Basic xyz"`) is forwarded unmodified
as the upstream credential. -/
theorem mcp_bearer_gate (h : Option String) :
    ((mcpPost h = .response (Response.json mcpMissingAuthBody 401)) ↔
      (h = none ∨ ∃ s, h = some s ∧ replaceFirst s "Bearer " = "")) ∧
    (∀ s, h = some s → hasSubstr s.data "Bearer ".data = false → s ≠ "" →
      mcpPost h = .forward s) := by
  cases h with
  | none =>
    refine ⟨⟨fun _ => Or.inl rfl, fun _ => rfl⟩, ?_⟩
    intro s hs
    cases hs
  | some s =>
    constructor
    · by_cases hrep : replaceFirst s "Bearer " = ""
      · refine ⟨fun _ => Or.inr ⟨s, rfl, hrep⟩, fun _ => ?_⟩
        simp [mcpPost, hrep]
      · constructor
        · intro hresp
          simp [mcpPost, hrep] at hresp
        · rintro (hnone | ⟨s', hs', hrep'⟩)
          · cases hnone
          · cases hs'
            exact absurd hrep' hrep
    · intro s' hs' hsub hne
      cases hs'
      have hid : replaceFirst s "Bearer " = s := by
        unfold replaceFirst
        rw [replaceFirstAux_of_no_substr (by decide) hsub]
      simp [mcpPost, hid, hne]

theorem mcp_bearer_gate_witness :
    mcpPost (some "Basic xyz") = .forward "Basic xyz" :=
  (mcp_bearer_gate (some "Basic xyz")).2 "Basic xyz" rfl (by decide) (by decide)

/-! ## C5 — configuration gating of the endpoints -/

/-- C5 counterexample: with every secret absent, `POST /oauth/register`
still answers 200 — the handler performs no configuration check at all, so
"absence of any secret disables the OAuth endpoints with a 500" is false
for the registration endpoint. -/
theorem register_no_config_check :
    (oauthRegister ⟨"", "", ""⟩ (Json.obj []) "client-1").status = 200 ∧
    (oauthRegister ⟨"", "", ""⟩ (Json.obj []) "client-1").status ≠ 500 :=
  ⟨rfl, by decide⟩

/-- C5 (amended): each endpoint checks exactly the secrets it uses —
`/oauth/token` all three, `/oauth/authorize` the client id and the state
secret, `/oauth/callback` only the state secret, and `/oauth/register`
none — answering the 500 configuration error when one of *those* is
absent, while the health and metadata endpoints never consult the
environment. -/
theorem config_gating_per_endpoint :
    (∀ (H : HmacModel) (env : Env) fetchToken params,
      (env.STRAVA_CLIENT_ID = "" ∨ env.STRAVA_CLIENT_SECRET = "" ∨ env.OAUTH_STATE_SECRET = "") →
      oauthToken H env fetchToken params = some (Response.json tokenNotConfiguredBody 500)) ∧
    (∀ (H : HmacModel) (env : Env) hostHeader query now,
      (env.STRAVA_CLIENT_ID = "" ∨ env.OAUTH_STATE_SECRET = "") →
      oauthAuthorize H env hostHeader query now = some (Response.json notConfiguredBody 500)) ∧
    (∀ (H : HmacModel) (env : Env) query now,
      env.OAUTH_STATE_SECRET = "" →
      oauthCallback H env query now = some (Response.json notConfiguredBody 500)) ∧
    (∀ (env : Env) body uuid, (oauthRegister env body uuid).status = 200) ∧
    (healthRoot.status = 200) ∧
    (∀ hostHeader, (wellKnownOauthAuthorizationServer hostHeader).status = 200 ∧
      (wellKnownOauthProtectedResource hostHeader).status = 200) := by
  refine ⟨?_, ?_, ?_, ?_, rfl, ?_⟩
  · intro H env fetchToken params hmiss
    rw [oauthToken, if_pos hmiss]
  · intro H env hostHeader query now hmiss
    rw [oauthAuthorize, if_pos hmiss]
  · intro H env query now hmiss
    rw [oauthCallback, if_pos hmiss]
  · intro env body uuid
    rfl
  · intro hostHeader
    exact ⟨rfl, rfl⟩

theorem config_gating_per_endpoint_witness :
    oauthToken hmacTest ⟨"cid", "", "ssec"⟩ (stubFetch "t" "B" 1 "r") [] =
      some (Response.json tokenNotConfiguredBody 500) ∧
    oauthAuthorize hmacTest ⟨"", "csec", "ssec"⟩ (some "h.example") [] 0 =
      some (Response.json notConfiguredBody 500) ∧
    oauthCallback hmacTest ⟨"cid", "csec", ""⟩ [] 0 =
      some (Response.json notConfiguredBody 500) ∧
    (oauthRegister ⟨"", "", ""⟩ (Json.obj []) "u1").status = 200 :=
  ⟨config_gating_per_endpoint.1 hmacTest ⟨"cid", "", "ssec"⟩ (stubFetch "t" "B" 1 "r") []
      (Or.inr (Or.inl rfl)),
   config_gating_per_endpoint.2.1 hmacTest ⟨"", "csec", "ssec"⟩ (some "h.example") [] 0
      (Or.inl rfl),
   config_gating_per_endpoint.2.2.1 hmacTest ⟨"cid", "csec", ""⟩ [] 0 rfl,
   config_gating_per_endpoint.2.2.2.1 ⟨"", "", ""⟩ (Json.obj []) "u1"⟩

/-! ## C6 — the returned scope is always the fixed scope string -/

theorem jsGet_tokenSuccessBody_scope (body : Json) :
    jsGet (tokenSuccessBody body) "scope" = some (Json.str STRAVA_SCOPES) := by
  unfold tokenSuccessBody
  cases hA : jsGet body "access_token" <;>
    cases hT : jsGet body "token_type" <;>
      cases hE : jsGet body "expires_in" <;>
        cases hR : jsGet body "refresh_token" <;>
          simp [hA, hT, hE, hR, jsGet, List.lookup]

/-- C6: every 200 response of `POST /oauth/token` — under either grant
type, whatever the upstream reports (including any granted scope value) —
carries `scope` equal to the fixed `STRAVA_SCOPES` string: the handler
builds the body with `scope: STRAVA_SCOPES` and never reads the upstream
scope. -/
theorem token_scope_fixed (H : HmacModel) (env : Env)
    (fetchToken : List (String × String) → FetchResponse)
    (params : List (String × String)) (b : Json)
    (h : oauthToken H env fetchToken params = some (Response.json b 200)) :
    jsGet b "scope" = some (Json.str STRAVA_SCOPES) := by
  simp only [oauthToken] at h
  repeat' split at h
  all_goals simp only [Option.some.injEq, Response.json.injEq] at h
  all_goals obtain ⟨hb, hs⟩ := h
  all_goals first
    | omega
    | (rw [← hb]; exact jsGet_tokenSuccessBody_scope _)

def tokenWitnessParams : List (String × String) :=
  [("grant_type", "authorization_code"),
   ("code", (encodeState hmacTest (wrappedCodePayload "ABC123") "ssec").getD "")]

/-- The body of the 200 answer `oauthToken` gives on `tokenWitnessParams`
with the stubbed upstream (extracted so the witness hypothesis is `rfl`). -/
def tokenWitnessBody : Json :=
  match oauthToken hmacTest envTest (stubFetch "tok" "Bearer" 21600 "r1") tokenWitnessParams with
  | some (Response.json b _) => b
  | _ => Json.null

theorem token_scope_fixed_witness :
    jsGet tokenWitnessBody "scope" = some (Json.str STRAVA_SCOPES) :=
  token_scope_fixed hmacTest envTest (stubFetch "tok" "Bearer" 21600 "r1")
    tokenWitnessParams tokenWitnessBody rfl

/-! ## Shared evaluation lemma for the callback's no-upstream-error path -/

/-- Disequality helpers for the three 400 bodies of the callback. -/
theorem invalidState_ne_stateExpired : invalidStateBody ≠ stateExpiredBody := by
  intro h
  have := congrArg (fun j => jsGet j "error") h
  simp [jsGet, invalidStateBody, stateExpiredBody] at this

theorem missingCodeState_ne_stateExpired : missingCodeStateBody ≠ stateExpiredBody := by
  intro h
  have := congrArg (fun j => jsGet j "error") h
  simp [jsGet, missingCodeStateBody, stateExpiredBody] at this

/-- Evaluation of `GET /oauth/callback` up to the decoded state, on a
request with no upstream `error`, a non-empty `code`, and a `state` that is
a valid token for payload `p`: what remains is the truthiness check, the
expiry check and the wrap-and-redirect step. -/
theorem oauthCallback_decoded (H : HmacModel) (env : Env) (p : Json)
    (q : List (String × String)) (now : Int) (C S : String)
    (hsec : env.OAUTH_STATE_SECRET ≠ "")
    (herr : getQuery q "error" = none)
    (hcode : getQuery q "code" = some C) (hC : C ≠ "")
    (hstate : getQuery q "state" = some S)
    (hS : encodeState H p env.OAUTH_STATE_SECRET = some S)
    (hp : parseChars (Json.stringifyChars p) = some p) :
    oauthCallback H env q now =
      (if ¬ jsTruthy p then some (Response.json invalidStateBody 400)
       else if tsExpired p now then some (Response.json stateExpiredBody 400)
       else
         match encodeState H (wrappedCodePayload C) env.OAUTH_STATE_SECRET with
         | none => none
         | some wrappedCode =>
           match callbackRedirect p "code" wrappedCode with
           | .redirect u => some (Response.redirect u)
           | .thrown => none
           | .noRedirect =>
             some (Response.json (Json.obj [("code", Json.str wrappedCode)]) 200)) := by
  have hSne : S ≠ "" := encodeState_ne_empty H p env.OAUTH_STATE_SECRET S hS
  have hdec : decodeState H S env.OAUTH_STATE_SECRET = some p :=
    decodeState_encodeState H p env.OAUTH_STATE_SECRET S hS hp
  simp only [oauthCallback]
  rw [if_neg hsec, herr, hcode, hstate]
  simp only [truthyS, Option.getD_some]
  rw [if_neg (by simp)]
  rw [if_neg (by simp [hC, hSne])]
  rw [hdec]

/-! ## C3 — expiry boundary at the callback -/

/-- C3: with a valid Authorize State and a `code` present, a timestamp of
`now - 600001` (ten minutes and one millisecond old) is rejected with the
400 state-expired error, while a timestamp of `now - 540000` (nine minutes
old) is accepted and the code is wrapped (the payload carries no redirect
target, so the wrapped code is returned as the JSON body). The two `≠ 0`
hypotheses record that the timestamps are not the JavaScript-falsy value
`0`, which would skip the check (see the no-timestamp claim). -/
theorem callback_expiry_boundary
    (H : HmacModel) (env : Env) (C S₁ S₂ W : String) (now : Int)
    (hsec : env.OAUTH_STATE_SECRET ≠ "") (hC : C ≠ "")
    (hS₁ : encodeState H (authStatePayload none none (now - 600001))
        env.OAUTH_STATE_SECRET = some S₁)
    (hp₁ : parseChars (Json.stringifyChars (authStatePayload none none (now - 600001))) =
        some (authStatePayload none none (now - 600001)))
    (ht₁ : now - 600001 ≠ 0)
    (hS₂ : encodeState H (authStatePayload none none (now - 540000))
        env.OAUTH_STATE_SECRET = some S₂)
    (hp₂ : parseChars (Json.stringifyChars (authStatePayload none none (now - 540000))) =
        some (authStatePayload none none (now - 540000)))
    (ht₂ : now - 540000 ≠ 0)
    (hW : encodeState H (wrappedCodePayload C) env.OAUTH_STATE_SECRET = some W) :
    oauthCallback H env [("code", C), ("state", S₁)] now =
      some (Response.json stateExpiredBody 400) ∧
    oauthCallback H env [("code", C), ("state", S₂)] now =
      some (Response.json (Json.obj [("code", Json.str W)]) 200) := by
  constructor
  · rw [oauthCallback_decoded H env (authStatePayload none none (now - 600001))
      [("code", C), ("state", S₁)] now C S₁ hsec rfl rfl hC rfl hS₁ hp₁]
    have htr : jsTruthy (authStatePayload none none (now - 600001)) = true := by
      simp [authStatePayload, jsTruthy]
    have hexp : tsExpired (authStatePayload none none (now - 600001)) now = true := by
      simp [tsExpired, authStatePayload, jsGet]
      omega
    simp [htr, hexp]
  · rw [oauthCallback_decoded H env (authStatePayload none none (now - 540000))
      [("code", C), ("state", S₂)] now C S₂ hsec rfl rfl hC rfl hS₂ hp₂]
    have htr : jsTruthy (authStatePayload none none (now - 540000)) = true := by
      simp [authStatePayload, jsTruthy]
    have hexp : tsExpired (authStatePayload none none (now - 540000)) now = false := by
      simp [tsExpired, authStatePayload, jsGet, Bool.and_eq_false_iff,
        decide_eq_false_iff_not]
    have hnr : callbackRedirect (authStatePayload none none (now - 540000)) "code" W =
        RedirectAttempt.noRedirect := by
      simp [callbackRedirect, authStatePayload, jsGet, List.lookup]
    simp [htr, hexp, hW, hnr]

def c3S1 : String :=
  (encodeState hmacTest (authStatePayload none none (1700000000000 - 600001)) "ssec").getD ""

def c3S2 : String :=
  (encodeState hmacTest (authStatePayload none none (1700000000000 - 540000)) "ssec").getD ""

def c3W : String := (encodeState hmacTest (wrappedCodePayload "ABC123") "ssec").getD ""

theorem callback_expiry_boundary_witness :
    oauthCallback hmacTest envTest [("code", "ABC123"), ("state", c3S1)] 1700000000000 =
      some (Response.json stateExpiredBody 400) ∧
    oauthCallback hmacTest envTest [("code", "ABC123"), ("state", c3S2)] 1700000000000 =
      some (Response.json (Json.obj [("code", Json.str c3W)]) 200) :=
  callback_expiry_boundary hmacTest envTest "ABC123" c3S1 c3S2 c3W 1700000000000
    (by decide) (by decide) rfl rfl (by decide) rfl rfl (by decide) rfl

/-! ## C4 — expiry vs. the missing-code check -/

def c4S : String :=
  (encodeState hmacTest
    (authStatePayload (some "https://client.example/cb") (some "xyz") 1000) "ssec").getD ""

/-- C4 counterexample: a validly signed Authorize State whose age exceeds
ten minutes, submitted *without* a `code`, is answered with the 400
"Missing code or state" error — the missing-parameter check at line 343
runs before the expiry check at line 357 — not with the state-expired
error the claim requires "regardless of whether code is present". -/
theorem callback_expired_missing_code_counterexample :
    oauthCallback hmacTest envTest [("state", c4S)] 1700000000000 =
      some (Response.json missingCodeStateBody 400) ∧
    oauthCallback hmacTest envTest [("state", c4S)] 1700000000000 ≠
      some (Response.json stateExpiredBody 400) := by
  constructor
  · rfl
  · intro h
    rw [show oauthCallback hmacTest envTest [("state", c4S)] 1700000000000 =
        some (Response.json missingCodeStateBody 400) from rfl] at h
    simp only [Option.some.injEq, Response.json.injEq] at h
    exact missingCodeState_ne_stateExpired h.1

/-- C4 (amended): for a validly signed Authorize State older than ten
minutes (truthy payload, non-zero numeric timestamp) and no upstream
error parameter, the callback answers the 400 state-expired error whenever
`code` is present and non-empty; when `code` is absent it answers the 400
"Missing code or state" error instead, and the expiry check never runs. -/
theorem callback_expiry_requires_code_present
    (H : HmacModel) (env : Env) (p : Json) (S : String) (t now : Int)
    (hsec : env.OAUTH_STATE_SECRET ≠ "")
    (hS : encodeState H p env.OAUTH_STATE_SECRET = some S)
    (hp : parseChars (Json.stringifyChars p) = some p)
    (htr : jsTruthy p = true)
    (hts : jsGet p "timestamp" = some (Json.num t))
    (ht0 : t ≠ 0) (hage : now - t > 600000) :
    (∀ C : String, C ≠ "" →
      oauthCallback H env [("code", C), ("state", S)] now =
        some (Response.json stateExpiredBody 400)) ∧
    oauthCallback H env [("state", S)] now =
      some (Response.json missingCodeStateBody 400) := by
  have hexp : tsExpired p now = true := by
    simp [tsExpired, hts]
    omega
  constructor
  · intro C hC
    rw [oauthCallback_decoded H env p [("code", C), ("state", S)] now C S hsec rfl rfl hC rfl
      hS hp]
    simp [htr, hexp]
  · simp only [oauthCallback]
    rw [if_neg hsec]
    simp [getQuery, List.lookup, truthyS]

theorem callback_expiry_requires_code_present_witness :
    oauthCallback hmacTest envTest [("code", "ABC123"), ("state", c4S)] 1700000000000 =
      some (Response.json stateExpiredBody 400) ∧
    oauthCallback hmacTest envTest [("state", c4S)] 1700000000000 =
      some (Response.json missingCodeStateBody 400) :=
  ⟨(callback_expiry_requires_code_present hmacTest envTest
      (authStatePayload (some "https://client.example/cb") (some "xyz") 1000) c4S 1000
      1700000000000 (by decide) rfl rfl rfl rfl (by decide) (by decide)).1 "ABC123" (by decide),
   (callback_expiry_requires_code_present hmacTest envTest
      (authStatePayload (some "https://client.example/cb") (some "xyz") 1000) c4S 1000
      1700000000000 (by decide) rfl rfl rfl rfl (by decide) (by decide)).2⟩

/-! ## C8 — missing or zero timestamp skips the expiry check -/

/-- C8: a validly signed state whose payload has no `timestamp` field, or
whose `timestamp` is the JavaScript-falsy `0`, is never answered with the
state-expired error, at any `now` — the conjunct
`stateData.timestamp && ...` short-circuits, so such a state never
expires. -/
theorem callback_no_timestamp_skips_expiry
    (H : HmacModel) (env : Env) (p : Json) (S C : String) (now : Int)
    (hsec : env.OAUTH_STATE_SECRET ≠ "") (hC : C ≠ "")
    (hS : encodeState H p env.OAUTH_STATE_SECRET = some S)
    (hp : parseChars (Json.stringifyChars p) = some p)
    (hts : jsGet p "timestamp" = none ∨ jsGet p "timestamp" = some (Json.num 0)) :
    oauthCallback H env [("code", C), ("state", S)] now ≠
      some (Response.json stateExpiredBody 400) := by
  have hexp : tsExpired p now = false := by
    rcases hts with h | h <;> simp [tsExpired, h]
  rw [oauthCallback_decoded H env p [("code", C), ("state", S)] now C S hsec rfl rfl hC rfl
    hS hp]
  by_cases htr : jsTruthy p = true
  · rw [if_neg (by simp [htr])]
    rw [if_neg (by simp [hexp])]
    cases henc : encodeState H (wrappedCodePayload C) env.OAUTH_STATE_SECRET with
    | none => simp
    | some w =>
      cases hred : callbackRedirect p "code" w with
      | redirect u => simp [hred]
      | thrown => simp [hred]
      | noRedirect => simp [hred]
  · rw [if_pos (by simp [htr])]
    intro h
    simp only [Option.some.injEq, Response.json.injEq] at h
    exact invalidState_ne_stateExpired h.1

def c8S : String :=
  (encodeState hmacTest
    (authStatePayload (some "https://client.example/cb") (some "xyz") 0) "ssec").getD ""

theorem callback_no_timestamp_skips_expiry_witness :
    oauthCallback hmacTest envTest [("code", "ABC123"), ("state", c8S)] 1999999999999 ≠
      some (Response.json stateExpiredBody 400) :=
  callback_no_timestamp_skips_expiry hmacTest envTest
    (authStatePayload (some "https://client.example/cb") (some "xyz") 0) c8S "ABC123"
    1999999999999 (by decide) (by decide) rfl rfl (Or.inr rfl)

/-! ## C7 — upstream error still redirects to the recovered client -/

/-- C7: on an upstream `error`, if the `state` decodes and carries a truthy
`redirect_uri` that parses as a URL, the callback redirects there with the
`error` (and the original `client_state` when present); conversely a
direct JSON error body is produced only when no such redirect target is
recovered (part two: a JSON answer implies the redirect construction did
not produce a redirect). -/
theorem callback_error_redirect_recovery
    (H : HmacModel) (env : Env) (q : List (String × String)) (now : Int)
    (hsec : env.OAUTH_STATE_SECRET ≠ "") :
    (∀ (e S : String) (stateData : Json) (r : String) (u : UrlModel),
      getQuery q "error" = some e → e ≠ "" →
      getQuery q "state" = some S → S ≠ "" →
      decodeState H S env.OAUTH_STATE_SECRET = some stateData →
      jsGet stateData "redirect_uri" = some (Json.str r) → r ≠ "" →
      parseUrl r = some u →
      oauthCallback H env q now =
        some (Response.redirect ⟨u.base,
          match jsGet stateData "client_state" with
          | some w =>
            if jsTruthy w then setParam (setParam u.params "error" e) "state" (jsCoerceStr w)
            else setParam u.params "error" e
          | none => setParam u.params "error" e⟩)) ∧
    (∀ (b : Json) (s : Nat) (stateData : Json) (u : UrlModel),
      truthyS (getQuery q "error") = true →
      oauthCallback H env q now = some (Response.json b s) →
      truthyS (getQuery q "state") = true →
      decodeState H ((getQuery q "state").getD "") env.OAUTH_STATE_SECRET = some stateData →
      callbackRedirect stateData "error" ((getQuery q "error").getD "") ≠
        RedirectAttempt.redirect u) := by
  constructor
  · intro e S stateData r u he hee hst hSne hdec hru hr hu
    have hcr : callbackRedirect stateData "error" e =
        RedirectAttempt.redirect ⟨u.base,
          match jsGet stateData "client_state" with
          | some w =>
            if jsTruthy w then setParam (setParam u.params "error" e) "state" (jsCoerceStr w)
            else setParam u.params "error" e
          | none => setParam u.params "error" e⟩ := by
      simp only [callbackRedirect, hru]
      rw [if_pos (show jsTruthy (Json.str r) = true by simp [jsTruthy, hr])]
      simp only [hu]
    simp only [oauthCallback]
    rw [if_neg hsec, he, hst]
    rw [if_pos (show truthyS (some e) = true by simp [truthyS, hee])]
    rw [if_pos (show truthyS (some S) = true by simp [truthyS, hSne])]
    simp only [Option.getD_some, hdec, hcr]
  · intro b s stateData u herrT h hstT hdec hred
    simp only [oauthCallback] at h
    rw [if_neg hsec] at h
    rw [if_pos herrT, if_pos hstT] at h
    simp only [hdec, hred] at h
    exact Option.noConfusion h (fun h' => Response.noConfusion h')

def c7S : String :=
  (encodeState hmacTest
    (authStatePayload (some "https://client.example/cb") (some "xyz") 1000) "ssec").getD ""

theorem callback_error_redirect_recovery_witness :
    oauthCallback hmacTest envTest [("error", "access_denied"), ("state", c7S)] 0 =
      some (Response.redirect ⟨"https://client.example/cb",
        [("error", "access_denied"), ("state", "xyz")]⟩) :=
  (callback_error_redirect_recovery hmacTest envTest
      [("error", "access_denied"), ("state", c7S)] 0 (by decide)).1
    "access_denied" c7S
    (authStatePayload (some "https://client.example/cb") (some "xyz") 1000)
    "https://client.example/cb" ⟨"https://client.example/cb", []⟩
    rfl (by decide) rfl (by decide) rfl rfl (by decide) rfl

/-! ## C1 — full delegation round trip -/

/-- C1: full delegation round trip. With all three secrets configured:
1. `GET /oauth/authorize?redirect_uri=R&state=X` answers a 302 to the
   upstream authorize URL whose `state` parameter is the signed token `S`;
2. `GET /oauth/callback?code=C&state=S` within ten minutes answers a 302
   to `R` carrying `state=X` and a wrapped code `W`;
3. decoding `W` with the state secret yields `{strava_code: C}`;
4. `POST /oauth/token` with `grant_type=authorization_code` and code `W`,
   with the upstream exchange stubbed to succeed, answers 200 with the
   upstream's `access_token`, `token_type`, `expires_in`, `refresh_token`
   and the fixed scope string.
The hypotheses name the signed tokens (`hS`, `hW` — both uniquely
determined by `encodeState`), require the client parameters to be
non-empty (JavaScript-falsy values divert the flow), require `R` to parse
as a URL (`new URL(R)` would throw), state the platform JSON round-trip
guarantee for both payloads, and place `now2` within the expiry window
with a non-falsy timestamp. -/
theorem oauth_delegation_roundtrip
    (H : HmacModel) (env : Env) (hostHeader : Option String)
    (R X C S W aT tT rT : String) (eI now1 now2 : Int) (uR : UrlModel)
    (hcid : env.STRAVA_CLIENT_ID ≠ "") (hcs : env.STRAVA_CLIENT_SECRET ≠ "")
    (hsec : env.OAUTH_STATE_SECRET ≠ "")
    (hR : R ≠ "") (hX : X ≠ "") (hC : C ≠ "") (htT : tT ≠ "")
    (hS : encodeState H (authStatePayload (some R) (some X) now1) env.OAUTH_STATE_SECRET =
        some S)
    (hpS : parseChars (Json.stringifyChars (authStatePayload (some R) (some X) now1)) =
        some (authStatePayload (some R) (some X) now1))
    (hW : encodeState H (wrappedCodePayload C) env.OAUTH_STATE_SECRET = some W)
    (hpW : parseChars (Json.stringifyChars (wrappedCodePayload C)) =
        some (wrappedCodePayload C))
    (huR : parseUrl R = some uR)
    (hage : now2 - now1 ≤ 600000) :
    oauthAuthorize H env hostHeader [("redirect_uri", R), ("state", X)] now1 =
      some (Response.redirect ⟨STRAVA_AUTHORIZE_URL,
        [("client_id", env.STRAVA_CLIENT_ID), ("response_type", "code"),
         ("redirect_uri",
           protocolFor (resolveHost hostHeader) ++ "://" ++ resolveHost hostHeader ++
             "/oauth/callback"),
         ("scope", STRAVA_SCOPES), ("state", S), ("approval_prompt", "auto")]⟩) ∧
    oauthCallback H env [("code", C), ("state", S)] now2 =
      some (Response.redirect ⟨uR.base, setParam (setParam uR.params "code" W) "state" X⟩) ∧
    decodeState H W env.OAUTH_STATE_SECRET = some (wrappedCodePayload C) ∧
    oauthToken H env (stubFetch aT tT eI rT)
      [("grant_type", "authorization_code"), ("code", W)] =
      some (Response.json (Json.obj [("access_token", Json.str aT),
        ("token_type", Json.str tT), ("expires_in", Json.num eI),
        ("refresh_token", Json.str rT), ("scope", Json.str STRAVA_SCOPES)]) 200) := by
  have hWne : W ≠ "" := encodeState_ne_empty H _ _ W hW
  refine ⟨?_, ?_, ?_, ?_⟩
  · simp only [oauthAuthorize]
    rw [if_neg (by simp [hcid, hsec])]
    have hq1 : getQuery [("redirect_uri", R), ("state", X)] "redirect_uri" = some R := rfl
    have hq2 : getQuery [("redirect_uri", R), ("state", X)] "state" = some X := rfl
    rw [hq1, hq2, hS]
  · rw [oauthCallback_decoded H env (authStatePayload (some R) (some X) now1)
      [("code", C), ("state", S)] now2 C S hsec rfl rfl hC rfl hS hpS]
    have htr : jsTruthy (authStatePayload (some R) (some X) now1) = true := by
      simp [authStatePayload, jsTruthy]
    have hexp : tsExpired (authStatePayload (some R) (some X) now1) now2 = false := by
      simp [tsExpired, authStatePayload, jsGet, List.lookup, Bool.and_eq_false_iff,
        decide_eq_false_iff_not]
      omega
    have hcr : callbackRedirect (authStatePayload (some R) (some X) now1) "code" W =
        RedirectAttempt.redirect ⟨uR.base, setParam (setParam uR.params "code" W) "state" X⟩ := by
      have hru : jsGet (authStatePayload (some R) (some X) now1) "redirect_uri" =
          some (Json.str R) := rfl
      have hcs' : jsGet (authStatePayload (some R) (some X) now1) "client_state" =
          some (Json.str X) := rfl
      simp only [callbackRedirect, hru, hcs']
      rw [if_pos (show jsTruthy (Json.str R) = true by simp [jsTruthy, hR])]
      simp only [huR]
      rw [if_pos (show jsTruthy (Json.str X) = true by simp [jsTruthy, hX])]
      rfl
    simp [htr, hexp, hW, hcr]
  · exact decodeState_encodeState H (wrappedCodePayload C) env.OAUTH_STATE_SECRET W hW hpW
  · simp only [oauthToken]
    rw [if_neg (by simp [hcid, hcs, hsec])]
    have hg : getQuery [("grant_type", "authorization_code"), ("code", W)] "grant_type" =
        some "authorization_code" := rfl
    have hc : getQuery [("grant_type", "authorization_code"), ("code", W)] "code" =
        some W := rfl
    rw [hg, hc]
    rw [if_neg (by decide)]
    rw [if_neg (by simp)]
    rw [if_neg (by simp [truthyS, hWne])]
    have hdecW : decodeState H ((some W).getD "") env.OAUTH_STATE_SECRET =
        some (wrappedCodePayload C) := by
      simpa using decodeState_encodeState H (wrappedCodePayload C) env.OAUTH_STATE_SECRET W
        hW hpW
    simp only [hdecW]
    rw [if_neg (by simp [wrappedCodePayload, jsTruthy])]
    simp [stubFetch, tokenSuccessBody, jsGet, List.lookup, jsTruthy, htT]

def c1S : String :=
  (encodeState hmacTest
    (authStatePayload (some "https://client.example/cb") (some "xyz") 1700000000000)
    "ssec").getD ""

def c1W : String := (encodeState hmacTest (wrappedCodePayload "ABC123") "ssec").getD ""

theorem oauth_delegation_roundtrip_witness :
    oauthAuthorize hmacTest envTest (some "mcp.example.com")
      [("redirect_uri", "https://client.example/cb"), ("state", "xyz")] 1700000000000 =
      some (Response.redirect ⟨STRAVA_AUTHORIZE_URL,
        [("client_id", "cid"), ("response_type", "code"),
         ("redirect_uri", "https://mcp.example.com/oauth/callback"),
         ("scope", STRAVA_SCOPES), ("state", c1S), ("approval_prompt", "auto")]⟩) ∧
    oauthCallback hmacTest envTest [("code", "ABC123"), ("state", c1S)] 1700000000000 =
      some (Response.redirect ⟨"https://client.example/cb",
        [("code", c1W), ("state", "xyz")]⟩) ∧
    decodeState hmacTest c1W "ssec" = some (wrappedCodePayload "ABC123") ∧
    oauthToken hmacTest envTest (stubFetch "tok" "Bearer" 21600 "r1")
      [("grant_type", "authorization_code"), ("code", c1W)] =
      some (Response.json (Json.obj [("access_token", Json.str "tok"),
        ("token_type", Json.str "Bearer"), ("expires_in", Json.num 21600),
        ("refresh_token", Json.str "r1"), ("scope", Json.str STRAVA_SCOPES)]) 200) :=
  oauth_delegation_roundtrip hmacTest envTest (some "mcp.example.com")
    "https://client.example/cb" "xyz" "ABC123" c1S c1W "tok" "Bearer" "r1" 21600
    1700000000000 1700000000000 ⟨"https://client.example/cb", []⟩
    (by decide) (by decide) (by decide) (by decide) (by decide) (by decide) (by decide)
    rfl rfl rfl rfl rfl (by decide)
